import Mathlib

/-!
Verification of the `translate` service of tlanjs-i18n (src/translate.js).

The service keeps a `resources` table mapping language codes to loaded term
trees, a `defaultLanguage` and a `selectedLanguage` (both possibly undefined),
and resolves dotted term keys with fallback to the default language and
positional placeholder substitution.  The injected resource loader
(`window.tlantic.system.readJSONFile`) is modelled as a function from the
resource address to an optional parsed tree; `none` means the failure callback
fires.  All issued loads are taken to completion, matching the quiescent
("no load in flight") view of the state.  Property access follows JS
semantics: own keys of plain objects shadow everything, and all other
accesses (prototype-inherited members, string exotics) go through an
explicit host-protocol parameter, since their exact extent depends on the
engine; placeholder substitution follows String.prototype.replace including
its replacement-text (GetSubstitution) processing.
-/

/-- JavaScript-like values the service manipulates: `null`, `undefined`,
strings, JSON objects (term trees as association lists of own keys), native
functions identified by their name (prototype-inherited methods such as
`toString`), and integral numbers (string `length` values and the like;
fractional and NaN numbers do not occur, since term trees hold only strings
and nested objects per the resource-file format). -/
inductive JsVal : Type
  | null : JsVal
  | undef : JsVal
  | str : String → JsVal
  | obj : List (String × JsVal) → JsVal
  | fn : String → JsVal
  | num : Int → JsVal

/-- JS truthiness as used by the service's `if` and `&&` conditions:
`null` and `undefined` are falsy, a string is truthy iff non-empty, a number
is truthy iff non-zero, objects and functions are always truthy. -/
def truthy : JsVal → Bool
  | JsVal.null => false
  | JsVal.undef => false
  | JsVal.str s => s != ""
  | JsVal.obj _ => true
  | JsVal.fn _ => true
  | JsVal.num n => n != 0

/-- The engine's implicit property protocol: the value produced when a
property access does not hit an own key of a plain object — the prototype
chain (`toString`, `hasOwnProperty`, ...), string exotics (`length`, indexed
characters) and every access on strings, numbers and functions.  Its exact
extent depends on the JavaScript engine and version, so the model takes it
as a parameter: statements about the program quantify over every host. -/
structure JsHost : Type where
  implicitProp : JsVal → String → JsVal

/-- JS property access `o[k]` as `getDescendantProp` performs it: an own key
of a plain object shadows everything and yields its value (even a falsy
one); every other access on an object, and any access on a string, number or
function, follows the host's implicit protocol.  Access on `null` or
`undefined` throws in JS; the service's truthiness-guarded loop never
performs it, and the model maps it to `undefined` for totality. -/
def getProp (host : JsHost) : JsVal → String → JsVal
  | JsVal.obj es, k =>
    match es.lookup k with
    | some v => v
    | none => host.implicitProp (JsVal.obj es) k
  | JsVal.null, _ => JsVal.undef
  | JsVal.undef, _ => JsVal.undef
  | v, k => host.implicitProp v k

/-- The loop of `getDescendantProp`:
`while(arr.length && (obj = obj[arr.shift()]));` — descend along the path
while the intermediate value stays truthy, returning the last value assigned
(which may be `undefined` or an empty string). -/
def descend (host : JsHost) : JsVal → List String → JsVal
  | o, [] => o
  | o, k :: rest =>
    let v := getProp host o k
    if truthy v then descend host v rest else v

/-- JS `desc.split(".")`, by structural recursion over the characters:
`acc` holds the current segment reversed. -/
def splitDots : List Char → List Char → List String
  | [], acc => [String.mk acc.reverse]
  | c :: rest, acc =>
    if c = '.' then String.mk acc.reverse :: splitDots rest []
    else splitDots rest (c :: acc)

/-- The dotted path of a term key, as `split(".")` produces it. -/
def splitPath (s : String) : List String :=
  splitDots s.data []

/-- Function `getDescendantProp(obj, desc)` from translate.js: split the key on `.`
and descend. -/
def getDescendantProp (host : JsHost) (obj : JsVal) (desc : String) : JsVal :=
  descend host obj (splitPath desc)

/-- The function-valued Object.prototype members every plain object inherits,
guaranteed by ES5 (browser Annex B accessors included). -/
def objectProtoKeys : List String :=
  ["constructor", "toString", "toLocaleString", "valueOf", "hasOwnProperty",
   "isPrototypeOf", "propertyIsEnumerable", "__defineGetter__",
   "__defineSetter__", "__lookupGetter__", "__lookupSetter__"]

/-- A host realizing the stable, ES5-guaranteed core of the implicit
protocol: plain objects inherit the Object.prototype function members.
Implicit accesses outside this core (string exotics, engine-specific
prototype additions) stay undefined in this instance; the development's
concrete statements only ever exercise the core, and statements about the
program quantify over every host rather than relying on this one. -/
def coreHost : JsHost :=
  { implicitProp := fun v k =>
      match v with
      | JsVal.obj _ => if objectProtoKeys.contains k then JsVal.fn k else JsVal.undef
      | _ => JsVal.undef }

/-- JS string coercion of a possibly-undefined string value: property keys and
string concatenation turn `undefined` into the text "undefined". -/
def jsStr : Option String → String
  | some s => s
  | none => "undefined"

/-- JS truthiness of a possibly-undefined string: `undefined` and the empty
string are falsy. -/
def optTruthy : Option String → Bool
  | some s => s != ""
  | none => false

/-- A message sent to the diagnostics sink (`$log`), at its severity. -/
inductive Diag : Type
  | warn : String → Diag
  | error : String → Diag
  deriving DecidableEq

/-- Remove the entry for key `k` (JS `delete resources[k]`). -/
def eraseKey (m : List (String × JsVal)) (k : String) : List (String × JsVal) :=
  m.filter (fun e => e.1 != k)

/-- Store `v` under key `k`, overwriting (JS `resources[k] = v`). -/
def setKey (m : List (String × JsVal)) (k : String) (v : JsVal) :
    List (String × JsVal) :=
  (k, v) :: eraseKey m k

/-- The mutable state of the `translate` service: the `resources` table and
the `defaultLanguage` / `selectedLanguage` properties (`none` = undefined),
plus the configurable `basePath`. -/
structure TranslateState : Type where
  resources : List (String × JsVal)
  defaultLanguage : Option String
  selectedLanguage : Option String
  basePath : String

/-- Reading `resources[language]` as getTerm does: the stored tree, or `undefined`
when no entry exists. -/
def lookupRes (st : TranslateState) (k : String) : JsVal :=
  (st.resources.lookup k).getD JsVal.undef

/-- The resource address built in `translateLoadResources`:
`basePath + 'resources.' + language + '.json'`. -/
def resourceFile (st : TranslateState) (language : String) : String :=
  st.basePath ++ "resources." ++ language ++ ".json"

/-- Outcome of one service call: the final state, the diagnostics emitted,
whether a resource load was issued, and whether the completion callback was
eventually invoked (always asynchronously — via the load success path or the
scheduler tick of the else branch). -/
structure CallResult : Type where
  state : TranslateState
  diags : List Diag
  loadIssued : Bool
  callbackInvoked : Bool

/-- Model of `translateLoadResources(language, callback)`: build the resource address
and ask the injected loader.  On success store the parsed tree and invoke the
callback (asynchronously); on failure store nothing, skip the callback, and
log an error naming the file. -/
def loadResources (loader : String → Option JsVal) (st : TranslateState)
    (language : String) (cb : Bool) : CallResult :=
  let file := resourceFile st language
  match loader file with
  | some result =>
    { state := { st with resources := setKey st.resources language result }
      diags := []
      loadIssued := true
      callbackInvoked := cb }
  | none =>
    { state := st
      diags := [Diag.error ("File [" ++ file ++ "] was not found.")]
      loadIssued := true
      callbackInvoked := false }

/-- Model of `translateSetDefaultLanguage(language, callback)`: set both language
properties to `language` unconditionally, then load its resources. -/
def setDefaultLanguage (loader : String → Option JsVal) (st : TranslateState)
    (language : String) (cb : Bool) : CallResult :=
  loadResources loader
    { st with defaultLanguage := some language, selectedLanguage := some language }
    language cb

/-- The eviction step of `translateSetLanguage`:
`if (defaultLanguage !== selectedLanguage && defaultLanguage !== language &&
selectedLanguage !== language) delete resources[selectedLanguage];`. -/
def evictStep (st : TranslateState) (language : String) : TranslateState :=
  if st.defaultLanguage ≠ st.selectedLanguage ∧ st.defaultLanguage ≠ some language ∧
      st.selectedLanguage ≠ some language then
    { st with resources := eraseKey st.resources (jsStr st.selectedLanguage) }
  else st

/-- Model of `translateSetLanguage(language, callback)` (the public `setLanguage`,
the spec's `setSelectedLanguage`): run the eviction step; then, if the target
differs from both the default and the selected language, select it and load
its resources, otherwise change nothing and invoke the callback on the next
scheduler tick.  The second condition reads the language properties, which the
eviction step does not touch. -/
def setLanguage (loader : String → Option JsVal) (st : TranslateState)
    (language : String) (cb : Bool) : CallResult :=
  let st1 := evictStep st language
  if st.defaultLanguage ≠ some language ∧ st.selectedLanguage ≠ some language then
    loadResources loader { st1 with selectedLanguage := some language } language cb
  else
    { state := st1, diags := [], loadIssued := false, callbackInvoked := cb }

/-- The backquote character, written by code point. -/
def backquoteChar : Char := Char.ofNat 96

/-- The single-quote character, written by code point. -/
def singleQuoteChar : Char := Char.ofNat 39

/-- The replacement-text processing of JS `String.prototype.replace`
(GetSubstitution), specialized to a plain-string pattern, which has no
capture groups: a doubled dollar yields a literal dollar, dollar-ampersand
yields the matched text, dollar-backquote the text before the match,
dollar-quote the text after it; every other dollar form (digits, named
groups, a trailing dollar) is left literal. -/
def getSubstitution (matched before after : List Char) : List Char → List Char
  | [] => []
  | [c] => [c]
  | c :: d :: rest =>
    if c = '$' then
      if d = '$' then '$' :: getSubstitution matched before after rest
      else if d = '&' then matched ++ getSubstitution matched before after rest
      else if d = backquoteChar then before ++ getSubstitution matched before after rest
      else if d = singleQuoteChar then after ++ getSubstitution matched before after rest
      else '$' :: getSubstitution matched before after (d :: rest)
    else c :: getSubstitution matched before after (d :: rest)

/-- Split at the first occurrence of `pat`: the text before the match and the
text after it, or `none` when `pat` does not occur. -/
def findSplit (pat : List Char) : List Char → Option (List Char × List Char)
  | [] => if pat.isPrefixOf [] then some ([], []) else none
  | c :: rest =>
    if pat.isPrefixOf (c :: rest) then some ([], (c :: rest).drop pat.length)
    else
      match findSplit pat rest with
      | some (pre, post) => some (c :: pre, post)
      | none => none

/-- JS `String.prototype.replace` with a plain-string pattern: replace the
first occurrence only, the replacement text going through GetSubstitution
(with the matched text equal to the pattern, since a string pattern matches
itself literally). -/
def replaceFirst (s pat rep : String) : String :=
  match findSplit pat.data s.data with
  | none => s
  | some (pre, post) =>
    String.mk (pre ++ getSubstitution pat.data pre post rep.data ++ post)

/-- The substitution loop of `translateGetTerm` on a string translation:
argument number `count` replaces the first occurrence of its numbered
placeholder token, arguments consumed in order. -/
def substStr : String → List String → Nat → String
  | s, [], _ => s
  | s, a :: rest, count =>
      substStr (replaceFirst s ("\x7b" ++ toString count ++ "\x7d") a) rest (count + 1)

/-- The substitution loop as executed on the raw `translation` value:
`translation.replace(...)` is only a function when `translation` is a string;
on any other value the call raises a TypeError. -/
def substLoop : JsVal → List String → Nat → Except String JsVal
  | t, [], _ => Except.ok t
  | JsVal.str s, a :: rest, count =>
      substLoop (JsVal.str (replaceFirst s ("\x7b" ++ toString count ++ "\x7d") a))
        rest (count + 1)
  | _, _ :: _, _ => Except.error "TypeError: translation.replace is not a function"

/-- The guard `if (translation && arguments.length > 2)` around the
substitution loop. -/
def substGuard (translation : JsVal) (args : List String) : Except String JsVal :=
  if truthy translation ∧ args ≠ [] then substLoop translation args 0
  else Except.ok translation

/-- The effective language of a getTerm call: the override when truthy,
otherwise `selectedLanguage`. -/
def effectiveLang (st : TranslateState) (language : Option String) : Option String :=
  if optTruthy language then language else st.selectedLanguage

/-- The body of `translateGetTerm` after the key check, with `t` the key and
`lang` the effective language: first lookup in the effective language
(`translation` is assigned whenever the language's table is truthy, even if
the looked-up value is falsy), then on a miss the two fallback warnings and
the retry against `defaultLanguage`, then the substitution guard. -/
def getTermCore (host : JsHost) (st : TranslateState) (t : String)
    (lang : Option String) (args : List String) : Except String JsVal × List Diag :=
  if optTruthy lang then
    let r1 := lookupRes st (jsStr lang)
    let v1 := getDescendantProp host r1 t
    if truthy r1 && truthy v1 then
      (substGuard v1 args, [])
    else
      let translation1 := if truthy r1 then v1 else JsVal.null
      let d1 : List Diag :=
        if st.selectedLanguage ≠ lang ∧ st.defaultLanguage ≠ lang then
          [Diag.warn ("Translation not found for language [" ++ jsStr lang ++
            "] and term [" ++ t ++ "].")]
        else []
      let r2 := lookupRes st (jsStr st.defaultLanguage)
      let v2 := getDescendantProp host r2 t
      let translation2 := if truthy r2 then v2 else translation1
      let d2 : List Diag :=
        if truthy r2 && truthy v2 then []
        else
          [Diag.warn ("Translation not found for language [" ++
            jsStr st.defaultLanguage ++ "] and term [" ++ t ++ "].")]
      (substGuard translation2 args, d1 ++ d2)
  else
    (Except.ok JsVal.null,
      [Diag.error "There must be a default language defined for the application."])

/-- Model of `translateGetTerm(term, language, ...args)`: a falsy key short-circuits to
the no-result marker with a warning; otherwise resolve through
`getTermCore`.  The first component is the returned value or the raised JS
fault, the second the diagnostics emitted on the way. -/
def getTerm (host : JsHost) (st : TranslateState) (term language : Option String)
    (args : List String) : Except String JsVal × List Diag :=
  if optTruthy term then
    getTermCore host st (jsStr term) (effectiveLang st language) args
  else (Except.ok JsVal.null, [Diag.warn "Term is required."])

/-- One public configuration call, for reachability statements. -/
inductive Call : Type
  | setDefault : String → Call
  | setLang : String → Call

/-- Run a sequence of configuration calls, every issued load completing
before the next call. -/
def runCalls (loader : String → Option JsVal) :
    TranslateState → List Call → TranslateState
  | st, [] => st
  | st, Call.setDefault l :: rest =>
      runCalls loader (setDefaultLanguage loader st l true).state rest
  | st, Call.setLang l :: rest =>
      runCalls loader (setLanguage loader st l true).state rest

/-- Run a sequence of `setLanguage` calls only. -/
def runSelects (loader : String → Option JsVal) :
    TranslateState → List String → TranslateState
  | st, [] => st
  | st, l :: rest => runSelects loader (setLanguage loader st l true).state rest

/-- The service's state at creation: empty resources table, both languages
undefined, empty base path. -/
def initState : TranslateState :=
  { resources := [], defaultLanguage := none, selectedLanguage := none, basePath := "" }

/-- A loader that succeeds on every address with an empty tree. -/
def anyLoader : String → Option JsVal := fun _ => some (JsVal.obj [])

/-- A loader that fails on every address. -/
def failLoader : String → Option JsVal := fun _ => none

/-! ### Helper lemmas about the resources table -/

theorem lookup_cons_ite (a q : String) (v : JsVal) (r : List (String × JsVal)) :
    List.lookup q ((a, v) :: r) = if q = a then some v else List.lookup q r := by
  rw [List.lookup_cons]
  by_cases h : q = a
  · simp [h]
  · simp [h, beq_false_of_ne h]

theorem eraseKey_cons (a : String) (v : JsVal) (r : List (String × JsVal)) (k : String) :
    eraseKey ((a, v) :: r) k =
      if a = k then eraseKey r k else (a, v) :: eraseKey r k := by
  by_cases h : a = k
  · simp [eraseKey, List.filter_cons, h]
  · simp [eraseKey, List.filter_cons, h]

theorem lookup_eraseKey_self (m : List (String × JsVal)) (k : String) :
    (eraseKey m k).lookup k = none := by
  induction m with
  | nil => rfl
  | cons e r ih =>
    obtain ⟨a, v⟩ := e
    rw [eraseKey_cons]
    by_cases h : a = k
    · rw [if_pos h]; exact ih
    · rw [if_neg h, lookup_cons_ite, if_neg (fun hk => h hk.symm)]; exact ih

theorem lookup_eraseKey_ne (m : List (String × JsVal)) (k q : String) (h : q ≠ k) :
    (eraseKey m k).lookup q = m.lookup q := by
  induction m with
  | nil => rfl
  | cons e r ih =>
    obtain ⟨a, v⟩ := e
    rw [eraseKey_cons]
    by_cases ha : a = k
    · rw [if_pos ha, lookup_cons_ite, if_neg (fun hq => h (hq.trans ha))]
      exact ih
    · rw [if_neg ha, lookup_cons_ite, lookup_cons_ite]
      by_cases hq : q = a
      · rw [if_pos hq, if_pos hq]
      · rw [if_neg hq, if_neg hq]; exact ih

theorem lookup_setKey_ne (m : List (String × JsVal)) (k q : String) (v : JsVal)
    (h : q ≠ k) : (setKey m k v).lookup q = m.lookup q := by
  unfold setKey
  rw [lookup_cons_ite, if_neg h]
  exact lookup_eraseKey_ne m k q h

theorem lookup_setKey_self (m : List (String × JsVal)) (k : String) (v : JsVal) :
    (setKey m k v).lookup k = some v := by
  unfold setKey
  rw [lookup_cons_ite, if_pos rfl]

/-! ### Helper lemmas about loadResources, evictStep and setLanguage -/

theorem loadResources_langs (loader : String → Option JsVal) (st : TranslateState)
    (l : String) (cb : Bool) :
    (loadResources loader st l cb).state.defaultLanguage = st.defaultLanguage ∧
    (loadResources loader st l cb).state.selectedLanguage = st.selectedLanguage := by
  cases hl : loader (resourceFile st l) <;> simp [loadResources, hl]

theorem loadResources_lookup_ne (loader : String → Option JsVal) (st : TranslateState)
    (l : String) (cb : Bool) (q : String) (h : q ≠ l) :
    (loadResources loader st l cb).state.resources.lookup q = st.resources.lookup q := by
  cases hl : loader (resourceFile st l) with
  | none => simp [loadResources, hl]
  | some v =>
    simp only [loadResources, hl]
    exact lookup_setKey_ne st.resources l q v h

theorem loadResources_cached (loader : String → Option JsVal) (st : TranslateState)
    (l : String) (cb : Bool) (q : String)
    (h : ((loadResources loader st l cb).state.resources.lookup q).isSome = true) :
    q = l ∨ (st.resources.lookup q).isSome = true := by
  by_cases hq : q = l
  · exact Or.inl hq
  · right
    rw [loadResources_lookup_ne loader st l cb q hq] at h
    exact h

theorem evictStep_langs (st : TranslateState) (l : String) :
    (evictStep st l).defaultLanguage = st.defaultLanguage ∧
    (evictStep st l).selectedLanguage = st.selectedLanguage ∧
    (evictStep st l).basePath = st.basePath := by
  unfold evictStep
  split <;> exact ⟨rfl, rfl, rfl⟩

theorem evictStep_eq_self (st : TranslateState) (l : String)
    (h : st.defaultLanguage = some l ∨ st.selectedLanguage = some l) :
    evictStep st l = st := by
  unfold evictStep
  rw [if_neg]
  rintro ⟨h1, h2, h3⟩
  rcases h with h | h
  · exact h2 h
  · exact h3 h

theorem setLanguage_noop (loader : String → Option JsVal) (st : TranslateState)
    (l : String) (cb : Bool)
    (h : st.defaultLanguage = some l ∨ st.selectedLanguage = some l) :
    setLanguage loader st l cb =
      { state := st, diags := [], loadIssued := false, callbackInvoked := cb } := by
  have h2 : ¬(st.defaultLanguage ≠ some l ∧ st.selectedLanguage ≠ some l) := by
    rintro ⟨ha, hb⟩
    rcases h with h | h
    · exact ha h
    · exact hb h
  simp only [setLanguage, evictStep_eq_self st l h, if_neg h2]

theorem setLanguage_lang_post (loader : String → Option JsVal) (st : TranslateState)
    (l : String) (cb : Bool) :
    (setLanguage loader st l cb).state.defaultLanguage = some l ∨
    (setLanguage loader st l cb).state.selectedLanguage = some l := by
  by_cases h2 : st.defaultLanguage ≠ some l ∧ st.selectedLanguage ≠ some l
  · right
    simp only [setLanguage, if_pos h2]
    rw [(loadResources_langs loader _ l cb).2]
  · rcases not_and_or.mp h2 with h | h
    · left
      rw [not_not] at h
      simp only [setLanguage, if_neg h2]
      rw [(evictStep_langs st l).1]
      exact h
    · right
      rw [not_not] at h
      simp only [setLanguage, if_neg h2]
      rw [(evictStep_langs st l).2.1]
      exact h

/-! ### Helper lemmas about getTerm -/

theorem jsStr_some (s : String) : jsStr (some s) = s := rfl

theorem substGuard_nil (t : JsVal) : substGuard t [] = Except.ok t := by
  rw [substGuard, if_neg]
  rintro ⟨h1, h2⟩
  exact h2 rfl

theorem substLoop_str (args : List String) : ∀ (s : String) (c : Nat),
    substLoop (JsVal.str s) args c = Except.ok (JsVal.str (substStr s args c)) := by
  induction args with
  | nil => intro s c; rfl
  | cons a rest ih =>
    intro s c
    rw [substLoop, substStr]
    exact ih _ _

theorem substGuard_str (s : String) (args : List String) (hs : s ≠ "") :
    substGuard (JsVal.str s) args = Except.ok (JsVal.str (substStr s args 0)) := by
  cases args with
  | nil => rw [substGuard_nil, substStr]
  | cons a rest =>
    have ht : truthy (JsVal.str s) = true := by simp [truthy, hs]
    rw [substGuard, if_pos ⟨ht, by simp⟩]
    exact substLoop_str (a :: rest) s 0

theorem getTermCore_found (host : JsHost) (st : TranslateState) (t : String)
    (lang : Option String) (args : List String) (s : String)
    (hl : optTruthy lang = true)
    (hres : truthy (lookupRes st (jsStr lang)) = true)
    (hfound : getDescendantProp host (lookupRes st (jsStr lang)) t = JsVal.str s)
    (hs : s ≠ "") :
    (getTermCore host st t lang args).1 = substGuard (JsVal.str s) args := by
  have hts : truthy (JsVal.str s) = true := by simp [truthy, hs]
  simp only [getTermCore, hl, if_true, hres, hfound, hts, Bool.and_self]

theorem getTermCore_fallback (host : JsHost) (st : TranslateState) (t : String)
    (lang : Option String) (args : List String) (s D : String)
    (hl : optTruthy lang = true)
    (hmiss : truthy (getDescendantProp host (lookupRes st (jsStr lang)) t) = false)
    (hd : st.defaultLanguage = some D)
    (hdl : truthy (lookupRes st D) = true)
    (hleaf : getDescendantProp host (lookupRes st D) t = JsVal.str s) :
    (getTermCore host st t lang args).1 = substGuard (JsVal.str s) args := by
  simp only [getTermCore, hl, if_true, hmiss, Bool.and_false, Bool.false_eq_true,
    if_false, hd, jsStr_some, hdl, hleaf]

theorem getTerm_fallback_hit (host : JsHost) (st : TranslateState) (term : String)
    (language : Option String) (s D : String)
    (hterm : term ≠ "")
    (heff : optTruthy (effectiveLang st language) = true)
    (hmiss : truthy (getDescendantProp host
      (lookupRes st (jsStr (effectiveLang st language))) term) = false)
    (hd : st.defaultLanguage = some D)
    (hdl : truthy (lookupRes st D) = true)
    (hleaf : getDescendantProp host (lookupRes st D) term = JsVal.str s) :
    (getTerm host st (some term) language []).1 = Except.ok (JsVal.str s) := by
  have ht : optTruthy (some term) = true := by simp [optTruthy, hterm]
  rw [getTerm, if_pos ht]
  have hcore := getTermCore_fallback host st (jsStr (some term))
    (effectiveLang st language) [] s D heff (by simpa [jsStr_some] using hmiss)
    hd hdl hleaf
  rw [hcore, substGuard_nil]

/-! ### The cache invariant -/

/-- Every language with a cached term tree is the current default or the
current selected language. -/
def CacheInv (st : TranslateState) : Prop :=
  ∀ L : String, (st.resources.lookup L).isSome = true →
    st.defaultLanguage = some L ∨ st.selectedLanguage = some L

theorem setLanguage_cacheInv (loader : String → Option JsVal) (st : TranslateState)
    (X : String) (cb : Bool) (h : CacheInv st) :
    CacheInv (setLanguage loader st X cb).state := by
  intro K hK
  by_cases h2 : st.defaultLanguage ≠ some X ∧ st.selectedLanguage ≠ some X
  · simp only [setLanguage, if_pos h2] at hK ⊢
    have hdl := loadResources_langs loader
      { evictStep st X with selectedLanguage := some X } X cb
    rcases loadResources_cached loader _ X cb K hK with rfl | hc
    · right
      rw [hdl.2]
    · change ((evictStep st X).resources.lookup K).isSome = true at hc
      by_cases h1 : st.defaultLanguage ≠ st.selectedLanguage ∧
          st.defaultLanguage ≠ some X ∧ st.selectedLanguage ≠ some X
      · rw [evictStep, if_pos h1] at hc
        change ((eraseKey st.resources (jsStr st.selectedLanguage)).lookup K).isSome
          = true at hc
        have hKne : K ≠ jsStr st.selectedLanguage := by
          intro he
          rw [he, lookup_eraseKey_self] at hc
          simp at hc
        rw [lookup_eraseKey_ne _ _ _ hKne] at hc
        rcases h K hc with hdK | hsK
        · left
          rw [hdl.1]
          change (evictStep st X).defaultLanguage = some K
          rw [(evictStep_langs st X).1]
          exact hdK
        · exact absurd (by rw [hsK, jsStr_some]) hKne
      · rw [evictStep, if_neg h1] at hc
        have hds : st.defaultLanguage = st.selectedLanguage := by
          by_contra hne
          exact h1 ⟨hne, h2.1, h2.2⟩
        have hdK : st.defaultLanguage = some K := by
          rcases h K hc with hdK | hsK
          · exact hdK
          · rw [hds]; exact hsK
        left
        rw [hdl.1]
        change (evictStep st X).defaultLanguage = some K
        rw [(evictStep_langs st X).1]
        exact hdK
  · have h1 : ¬(st.defaultLanguage ≠ st.selectedLanguage ∧
        st.defaultLanguage ≠ some X ∧ st.selectedLanguage ≠ some X) := by
      rintro ⟨ha, hb, hc2⟩
      exact h2 ⟨hb, hc2⟩
    simp only [setLanguage, if_neg h2, evictStep, if_neg h1] at hK ⊢
    exact h K hK

theorem setDefaultLanguage_init_cacheInv (loader : String → Option JsVal)
    (A : String) (cb : Bool) :
    CacheInv (setDefaultLanguage loader initState A cb).state := by
  intro K hK
  unfold setDefaultLanguage at hK ⊢
  have hdl := loadResources_langs loader
    { initState with defaultLanguage := some A, selectedLanguage := some A } A cb
  rcases loadResources_cached loader _ A cb K hK with rfl | hc
  · left
    rw [hdl.1]
  · simp [initState, List.lookup] at hc

theorem runSelects_cacheInv (loader : String → Option JsVal) (ls : List String) :
    ∀ st : TranslateState, CacheInv st → CacheInv (runSelects loader st ls) := by
  induction ls with
  | nil => intro st h; exact h
  | cons l rest ih =>
    intro st h
    exact ih _ (setLanguage_cacheInv loader st l true h)

/-! ### Concrete states used by examples and counterexamples -/

/-- A state with default "a", selected "b", and only "b" cached. -/
def evictedState : TranslateState :=
  { resources := [("b", JsVal.obj [("k", JsVal.str "v")])],
    defaultLanguage := some "a", selectedLanguage := some "b", basePath := "" }

/-- A diverged state: default "a", selected "b", empty cache. -/
def divergedState : TranslateState :=
  { resources := [], defaultLanguage := some "a", selectedLanguage := some "b",
    basePath := "" }

/-- A state whose loaded tree maps "user" to a nested subtree. -/
def subtreeState : TranslateState :=
  { resources := [("en", JsVal.obj [("user", JsVal.obj [("name", JsVal.str "x")])])],
    defaultLanguage := some "en", selectedLanguage := some "en", basePath := "" }

/-- A state with placeholder-bearing terms for substitution examples. -/
def substState : TranslateState :=
  { resources := [("en", JsVal.obj
      [("greet", JsVal.str "Hi {0}, meet {1}"),
       ("solo", JsVal.str "only {0}"),
       ("dup", JsVal.str "{0} and {0}"),
       ("two", JsVal.str "{0} then {1}")])],
    defaultLanguage := some "en", selectedLanguage := some "en", basePath := "" }

/-- Selected "fr" maps "greet" to the empty string, default "en" has it. -/
def emptyLeafState : TranslateState :=
  { resources := [("fr", JsVal.obj [("greet", JsVal.str "")]),
                  ("en", JsVal.obj [("greet", JsVal.str "Hello")])],
    defaultLanguage := some "en", selectedLanguage := some "fr", basePath := "" }

/-- C1, counterexample: with selectedLanguage = "b" defined and different from
both defaultLanguage = "a" and the target L = "a", calling setSelectedLanguage
with L equal to the default does NOT evict "b"'s cached tree, contradicting
the claim's "in particular also when the new target L equals
defaultLanguage". -/
theorem C1_counterexample :
    evictedState.selectedLanguage = some "b" ∧
    evictedState.defaultLanguage = some "a" ∧
    evictedState.selectedLanguage ≠ evictedState.defaultLanguage ∧
    ((setLanguage anyLoader evictedState "a" true).state.resources.lookup "b").isSome
      = true :=
  ⟨rfl, rfl, by decide, rfl⟩

/-- C1 (amended): when selectedLanguage is defined and differs from both
defaultLanguage and the target L, the previously selected language's cached
tree is evicted provided the target L ALSO differs from defaultLanguage;
when L equals defaultLanguage the store is left unchanged (no eviction). -/
theorem C1_eviction_requires_target_ne_default (loader : String → Option JsVal)
    (st : TranslateState) (S L : String) (cb : Bool)
    (hsel : st.selectedLanguage = some S)
    (hsd : st.selectedLanguage ≠ st.defaultLanguage)
    (hSL : S ≠ L) :
    (st.defaultLanguage ≠ some L →
      (setLanguage loader st L cb).state.resources.lookup S = none) ∧
    (st.defaultLanguage = some L →
      (setLanguage loader st L cb).state.resources = st.resources) := by
  constructor
  · intro hdL
    have hselL : st.selectedLanguage ≠ some L := by
      rw [hsel]
      intro he
      exact hSL (Option.some.inj he)
    have h1 : st.defaultLanguage ≠ st.selectedLanguage ∧ st.defaultLanguage ≠ some L ∧
        st.selectedLanguage ≠ some L := ⟨fun he => hsd he.symm, hdL, hselL⟩
    have h2 : st.defaultLanguage ≠ some L ∧ st.selectedLanguage ≠ some L :=
      ⟨hdL, hselL⟩
    simp only [setLanguage, if_pos h2, evictStep, if_pos h1]
    rw [loadResources_lookup_ne loader _ L cb S hSL]
    change (eraseKey st.resources (jsStr st.selectedLanguage)).lookup S = none
    rw [hsel, jsStr_some]
    exact lookup_eraseKey_self st.resources S
  · intro hdL
    have h2 : ¬(st.defaultLanguage ≠ some L ∧ st.selectedLanguage ≠ some L) :=
      fun h => h.1 hdL
    have h1 : ¬(st.defaultLanguage ≠ st.selectedLanguage ∧
        st.defaultLanguage ≠ some L ∧ st.selectedLanguage ≠ some L) :=
      fun h => h.2.1 hdL
    simp only [setLanguage, if_neg h2, evictStep, if_neg h1]

/-- C1, witness: evicting "b" when switching to "c" with default "a". -/
theorem C1_eviction_requires_target_ne_default_witness :
    (setLanguage anyLoader evictedState "c" true).state.resources.lookup "b" = none :=
  (C1_eviction_requires_target_ne_default anyLoader evictedState "b" "c" true rfl
    (by decide) (by decide)).1 (by decide)

/-! ### Claim C2 -/

/-- C2, refuting the no-fault claim on the code: in a state whose term tree
maps "user" to a nested subtree, getTerm("user") with one substitution
argument raises a TypeError (the subtree object has no replace method)
instead of returning a value; no diagnostics are emitted beforehand.  The
spec's intent ("all failure paths return a benign no-result value rather than
raising a fault") is clearly no-crash, so the code is in the wrong. -/
theorem C2_subtree_substitution_raises :
    ∀ host : JsHost, getTerm host subtreeState (some "user") none ["x"] =
      (Except.error "TypeError: translation.replace is not a function", []) :=
  fun _ => rfl

/-! ### Claim C3 -/

/-- C4, counterexample: an argument containing dollar patterns is not spliced
in verbatim: with the single argument consisting of two dollar signs, the
code yields one dollar sign (String.prototype.replace processes the
replacement text), not the argument itself as the claim asserts. -/
theorem C4_counterexample :
    (getTerm coreHost substState (some "greet") none ["$$"]).1 =
      Except.ok (JsVal.str "Hi $, meet {1}") ∧
    ("Hi $, meet {1}" : String) ≠ "Hi $$, meet {1}" :=
  ⟨rfl, by decide⟩

/-- C4 (amended): when resolution yields a non-empty string and extra
positional arguments are supplied, getTerm returns the string with, for each
i in order, only the first occurrence of the i-th numbered placeholder token
replaced by the i-th argument as processed by the replacement-text rules of
String.prototype.replace (GetSubstitution — an argument containing no dollar
sign is spliced verbatim); surplus arguments are ignored, repeated tokens
are replaced only at their first occurrence, tokens with no corresponding
argument are left intact, and the documented example yields
"Hi Ann, meet Bob". -/
theorem C4_placeholder_substitution :
    (∀ (host : JsHost) (st : TranslateState) (term : String)
      (language : Option String) (args : List String) (s : String),
      term ≠ "" →
      optTruthy (effectiveLang st language) = true →
      truthy (lookupRes st (jsStr (effectiveLang st language))) = true →
      getDescendantProp host (lookupRes st (jsStr (effectiveLang st language)))
        term = JsVal.str s →
      s ≠ "" →
      (getTerm host st (some term) language args).1 =
        Except.ok (JsVal.str (substStr s args 0))) ∧
    (∀ (matched before after rep : List Char), '$' ∉ rep →
      getSubstitution matched before after rep = rep) ∧
    (getTerm coreHost substState (some "greet") none ["Ann", "Bob"]).1 =
      Except.ok (JsVal.str "Hi Ann, meet Bob") ∧
    (getTerm coreHost substState (some "solo") none ["Ann", "Bob"]).1 =
      Except.ok (JsVal.str "only Ann") ∧
    (getTerm coreHost substState (some "dup") none ["Ann"]).1 =
      Except.ok (JsVal.str "Ann and {0}") ∧
    (getTerm coreHost substState (some "two") none ["Ann"]).1 =
      Except.ok (JsVal.str "Ann then {1}") := by
  refine ⟨?_, ?_, rfl, rfl, rfl, rfl⟩
  · intro host st term language args s hterm heff hres hfound hs
    have ht : optTruthy (some term) = true := by simp [optTruthy, hterm]
    rw [getTerm, if_pos ht]
    have hcore := getTermCore_found host st (jsStr (some term))
      (effectiveLang st language) args s heff hres
      (by simpa [jsStr_some] using hfound) hs
    rw [hcore, substGuard_str s args hs]
  · intro matched before after rep
    induction rep with
    | nil => intro hf; rfl
    | cons c rest ih =>
      intro hf
      have hc : ¬ c = '$' := by
        intro he
        subst he
        exact hf (List.mem_cons_self _ _)
      cases rest with
      | nil => rfl
      | cons d rest2 =>
        rw [getSubstitution, if_neg hc,
          ih (fun hm => hf (List.mem_cons_of_mem c hm))]

/-- C4, witness: the documented greeting example, stated through substStr. -/
theorem C4_placeholder_substitution_witness :
    (getTerm coreHost substState (some "greet") none ["Ann", "Bob"]).1 =
      Except.ok (JsVal.str (substStr "Hi {0}, meet {1}" ["Ann", "Bob"] 0)) :=
  C4_placeholder_substitution.1 coreHost substState "greet" none ["Ann", "Bob"]
    "Hi {0}, meet {1}" (by decide) rfl rfl rfl (by decide)

/-! ### Claim C5 -/

/-- C5, counterexample: from the Diverged state (default "a", selected "b"),
setSelectedLanguage("a") does NOT transition to DefaultOnly: the selected
language stays "b", different from the default, contradicting the claimed
transition. -/
theorem C5_counterexample :
    divergedState.defaultLanguage = some "a" ∧
    divergedState.selectedLanguage = some "b" ∧
    (setLanguage anyLoader divergedState "a" true).state.selectedLanguage = some "b" ∧
    (setLanguage anyLoader divergedState "a" true).state.selectedLanguage ≠
      (setLanguage anyLoader divergedState "a" true).state.defaultLanguage :=
  ⟨rfl, rfl, rfl, by decide⟩

/-- C5 (amended): from every Diverged state (selected = B, default = A,
B different from A), calling setSelectedLanguage(A) with the target equal to
the default is a no-op: the state is unchanged (selectedLanguage remains B,
so the resolver stays Diverged), no load is issued, nothing is evicted, and
the completion callback is still invoked asynchronously. -/
theorem C5_diverged_select_default_noop (loader : String → Option JsVal)
    (st : TranslateState) (A B : String) (cb : Bool)
    (hd : st.defaultLanguage = some A)
    (hs : st.selectedLanguage = some B)
    (hBA : B ≠ A) :
    setLanguage loader st A cb =
      { state := st, diags := [], loadIssued := false, callbackInvoked := cb } :=
  setLanguage_noop loader st A cb (Or.inl hd)

/-- C5, witness: the no-op on the concrete diverged state. -/
theorem C5_diverged_select_default_noop_witness :
    setLanguage anyLoader divergedState "a" true =
      { state := divergedState, diags := [], loadIssued := false,
        callbackInvoked := true } :=
  C5_diverged_select_default_noop anyLoader divergedState "a" "b" true rfl rfl
    (by decide)

/-! ### Claim C6 -/

/-- C6, counterexample: after setDefaultLanguage("a"), setSelectedLanguage("b"),
setDefaultLanguage("c") with every load succeeding, "b" still has a cached
tree although it is neither the current default nor the current selected
language — setDefaultLanguage never evicts. -/
theorem C6_counterexample :
    ((runCalls anyLoader initState
      [Call.setDefault "a", Call.setLang "b", Call.setDefault "c"]).resources.lookup
        "b").isSome = true ∧
    (runCalls anyLoader initState
      [Call.setDefault "a", Call.setLang "b", Call.setDefault "c"]).defaultLanguage
      = some "c" ∧
    (runCalls anyLoader initState
      [Call.setDefault "a", Call.setLang "b", Call.setDefault "c"]).selectedLanguage
      = some "c" ∧
    ("b" : String) ≠ "c" :=
  ⟨rfl, rfl, rfl, by decide⟩

/-- C6 (amended): the claimed invariant holds provided setDefaultLanguage is
called exactly once, as the first call: in every state reached from the
initial state by one setDefaultLanguage followed by any sequence of
setSelectedLanguage calls (all loads completed), every language with a cached
tree is the current default or the current selected language.  A repeated
setDefaultLanguage violates it, since it evicts nothing. -/
theorem C6_single_default_cache_invariant (loader : String → Option JsVal)
    (A : String) (ls : List String) (L : String)
    (hcached : ((runSelects loader (setDefaultLanguage loader initState A true).state
      ls).resources.lookup L).isSome = true) :
    (runSelects loader (setDefaultLanguage loader initState A true).state
      ls).defaultLanguage = some L ∨
    (runSelects loader (setDefaultLanguage loader initState A true).state
      ls).selectedLanguage = some L :=
  runSelects_cacheInv loader ls _ (setDefaultLanguage_init_cacheInv loader A true)
    L hcached

/-- C6, witness: after setDefaultLanguage("a") and setSelectedLanguage("b"),
the cached language "a" is accounted for by the invariant. -/
theorem C6_single_default_cache_invariant_witness :
    (runSelects anyLoader (setDefaultLanguage anyLoader initState "a" true).state
      ["b"]).defaultLanguage = some "a" ∨
    (runSelects anyLoader (setDefaultLanguage anyLoader initState "a" true).state
      ["b"]).selectedLanguage = some "a" :=
  C6_single_default_cache_invariant anyLoader "a" ["b"] "a" rfl

/-! ### Claim C7 -/

/-- C7: for every language, when the injected loader reports failure for the
address basePath + "resources." + language + ".json", the load stores no
entry (the state is unchanged), never invokes the completion callback, and
emits exactly one error-severity diagnostic whose text contains that
resource address. -/
theorem C7_load_failure (loader : String → Option JsVal) (st : TranslateState)
    (language : String) (cb : Bool)
    (hfail : loader (resourceFile st language) = none) :
    loadResources loader st language cb =
      { state := st,
        diags := [Diag.error ("File [" ++ resourceFile st language ++
          "] was not found.")],
        loadIssued := true,
        callbackInvoked := false } := by
  simp [loadResources, hfail]

/-- C7, witness: a failing loader on the initial state for "en". -/
theorem C7_load_failure_witness :
    loadResources failLoader initState "en" true =
      { state := initState,
        diags := [Diag.error ("File [" ++ resourceFile initState "en" ++
          "] was not found.")],
        loadIssued := true,
        callbackInvoked := false } :=
  C7_load_failure failLoader initState "en" true rfl

/-! ### Claim C8 -/

/-- C8: for every state, language override and argument list, getTerm with an
empty or absent key returns the no-result marker with exactly one warning
diagnostic, raising no fault; the result is the same constant for every
state, so no lookup, no fallback and no state access is involved (getTerm
never mutates the resolver state). -/
theorem C8_missing_key (host : JsHost) (st : TranslateState)
    (term language : Option String) (args : List String)
    (hterm : optTruthy term = false) :
    getTerm host st term language args =
      (Except.ok JsVal.null, [Diag.warn "Term is required."]) := by
  rw [getTerm, if_neg]
  simp [hterm]

/-- C8, witness: the empty key on the initial state. -/
theorem C8_missing_key_witness :
    getTerm coreHost initState (some "") none [] =
      (Except.ok JsVal.null, [Diag.warn "Term is required."]) :=
  C8_missing_key coreHost initState (some "") none [] rfl

/-! ### Claim C9 -/

/-- C9: a second consecutive setSelectedLanguage(X) is always a complete
no-op apart from the asynchronous callback: whatever the first call did, the
second call leaves the state exactly as the first call left it (so nothing is
evicted and both language properties are unchanged), issues no load, emits no
diagnostics, and still invokes the completion callback (asynchronously, via
the scheduler tick). -/
theorem C9_second_setLanguage_noop (loader : String → Option JsVal)
    (st : TranslateState) (X : String) :
    setLanguage loader (setLanguage loader st X true).state X true =
      { state := (setLanguage loader st X true).state, diags := [],
        loadIssued := false, callbackInvoked := true } :=
  setLanguage_noop loader (setLanguage loader st X true).state X true
    (setLanguage_lang_post loader st X true)

/-! ### Claim C10 -/

/-- C10: if the effective language's tree maps the key's full dotted path to
the empty string, getTerm treats it as a lookup miss because of the
truthiness-based found check: it proceeds to the default-language fallback
and returns the default language's leaf value instead of the empty string. -/
theorem C10_empty_leaf_falls_back (host : JsHost) (st : TranslateState)
    (term : String) (language : Option String) (s D : String)
    (hterm : term ≠ "")
    (heff : optTruthy (effectiveLang st language) = true)
    (hempty : getDescendantProp host
      (lookupRes st (jsStr (effectiveLang st language))) term = JsVal.str "")
    (hd : st.defaultLanguage = some D)
    (hdl : truthy (lookupRes st D) = true)
    (hleaf : getDescendantProp host (lookupRes st D) term = JsVal.str s) :
    (getTerm host st (some term) language []).1 = Except.ok (JsVal.str s) :=
  getTerm_fallback_hit host st term language s D hterm heff
    (by rw [hempty]; rfl) hd hdl hleaf

/-- C10, witness: selected "fr" maps "greet" to "", default "en" maps it to
"Hello"; getTerm returns "Hello", not "". -/
theorem C10_empty_leaf_falls_back_witness :
    (getTerm coreHost emptyLeafState (some "greet") none []).1 =
      Except.ok (JsVal.str "Hello") :=
  C10_empty_leaf_falls_back coreHost emptyLeafState "greet" none "Hello" "en"
    (by decide) rfl rfl rfl rfl rfl
